import Mathlib

set_option autoImplicit false

/-!
Shallow embedding of the func-typescript library: the Result carrier, the
step-chain runner, the Try engine and the Option engine, translated from the
TypeScript sources.  Asynchronous execution is strictly sequential awaiting in
the source, so steps are modelled as state-passing functions over an abstract
world type sigma that stands for the mutable outer environment captured by user
closures.  A thrown or rejected value is modelled with Except.
-/

namespace FuncTs

/-- JavaScript error objects as the library uses them: a runtime name used for
dispatch and a message string. -/
structure JSError where
  name : String
  message : String
deriving DecidableEq, Repr

/-- Dynamic JavaScript values threaded through the Result carrier.  vPromiseOk
and vPromiseErr model a pending promise object stored in a slot without being
awaited; vArr models the array produced by sequence. -/
inductive JSValue where
  | vNull
  | vUndefined
  | vBool (b : Bool)
  | vNum (n : Int)
  | vStr (s : String)
  | vArr (xs : List JSValue)
  | vPromiseOk (v : JSValue)
  | vPromiseErr (e : JSError)

/-- JavaScript truthiness: null, undefined, false, 0 and the empty string are
falsy; objects such as promises and arrays are always truthy. -/
def truthy : JSValue → Bool
  | .vNull => false
  | .vUndefined => false
  | .vBool b => b
  | .vNum n => n != 0
  | .vStr s => s != ""
  | .vArr _ => true
  | .vPromiseOk _ => true
  | .vPromiseErr _ => true

/-- Loose equality to null, written value == null in the source: true exactly
for null and undefined. -/
def looseNull : JSValue → Bool
  | .vNull => true
  | .vUndefined => true
  | _ => false

/-- String conversion as performed by a template literal on the modelled
values. -/
def jsToString : JSValue → String
  | .vNull => "null"
  | .vUndefined => "undefined"
  | .vBool b => if b then "true" else "false"
  | .vNum n => toString n
  | .vStr s => s
  | .vArr _ => "array"
  | .vPromiseOk _ => "promiseValue"
  | .vPromiseErr _ => "promiseValue"

/-- The NoSuchElementException constructor from the exceptions module: it sets
the runtime name and the message. -/
def mkNoSuchElement (msg : String) : JSError :=
  { name := "NoSuchElementException", message := msg }

/-- The Result carrier from Result.ts: one mutable slot for a value, initially
undefined, and one for an error object, where none models undefined. -/
structure Result where
  value : JSValue
  error : Option JSError

/-- A fresh Result as produced by the constructor. -/
def Result.empty : Result := { value := .vUndefined, error := none }

def Result.setValue (r : Result) (v : JSValue) : Result := { r with value := v }

def Result.getValue (r : Result) : JSValue := r.value

def Result.setError (r : Result) (e : Option JSError) : Result := { r with error := e }

def Result.getError (r : Result) : Option JSError := r.error

/-- isError from Result.ts: true iff the error slot is populated. -/
def Result.isError (r : Result) : Bool := r.error.isSome

/-- hasvalue from Result.ts, spelled as in the source: true iff the error slot
is not populated. -/
def Result.hasvalue (r : Result) : Bool := r.error.isNone

/-- A Try step: consumes the previous Result and the world, produces the next
Result and the updated world.  Steps built by the Try combinators catch the
exceptions of their callbacks themselves, so they never throw outward. -/
abbrev TStep (σ : Type) := σ → Result → σ × Result

/-- A user callback passed to a mapping combinator: it may read and write the
outer world and may throw. -/
abbrev Cb (σ : Type) := JSValue → σ → σ × Except JSError JSValue

/-- A side-effect callback whose return value is discarded. -/
abbrev CbU (σ : Type) := JSValue → σ → σ × Except JSError Unit

/-- A predicate callback: may be effectful and may throw. -/
abbrev Pred (σ : Type) := JSValue → σ → σ × Except JSError Bool

/-- Lifts a pure predicate into the effectful callback shape. -/
def purePred {σ : Type} (p : JSValue → Bool) : Pred σ :=
  fun v s => (s, Except.ok (p v))

/-- The Try instance internals from Try.ts: the appended step list, the
computed flag and the cached final Result. -/
structure Try (σ : Type) where
  steps : List (TStep σ)
  isComputed : Bool
  finalResult : Option Result

/-- The step-chain runner from helpers.ts: starts from the given Result and
awaits each step in order, feeding each the Result of its predecessor. -/
def runSteps {σ : Type} : List (TStep σ) → σ → Result → σ × Result
  | [], s, r => (s, r)
  | step :: rest, s, r =>
      let p := step s r
      runSteps rest p.1 p.2

/-- runInTry from helpers.ts: runs the body; when it throws, the caught value
is written into the error slot of prev and false is returned.  The body is
given as a function returning the fully mutated Result or the thrown error;
every body in the source mutates prev only as its final action, so on a throw
prev is still the incoming Result. -/
def runInTry {σ : Type} (body : σ → σ × Except JSError Result) (prev : Result)
    (s : σ) : σ × Result × Bool :=
  match body s with
  | (s1, .ok r) => (s1, r, true)
  | (s1, .error e) => (s1, prev.setError (some e), false)

/-- Reading a final Result the way the execution methods do: throw the error
when the error slot is populated, otherwise return the value slot. -/
def resultOutcome (r : Result) : Except JSError JSValue :=
  match r.error with
  | some e => .error e
  | none => .ok r.value

/-- The cached Result consulted by the memoized execution methods; when the
cache was never populated the source would read an unset field, modelled by an
empty Result. -/
def cachedResult {σ : Type} (t : Try σ) : Result :=
  t.finalResult.getD Result.empty

/-- get from the Try execution functions, cached variant: on a computed
instance it answers from the cached Result; otherwise it runs the chain from a
fresh Result, stores the outcome and marks the instance computed. -/
def tryGet {σ : Type} (t : Try σ) (s : σ) : Try σ × σ × Except JSError JSValue :=
  if t.isComputed then
    (t, s, resultOutcome (cachedResult t))
  else
    let p := runSteps t.steps s Result.empty
    ({ t with isComputed := true, finalResult := some p.2 }, p.1, resultOutcome p.2)

/-- run from the Try execution functions: on a computed instance it returns the
instance at once; otherwise it runs the chain, caches, and throws the error of
a failed outcome. -/
def tryRun {σ : Type} (t : Try σ) (s : σ) : Try σ × σ × Except JSError Unit :=
  if t.isComputed then
    (t, s, .ok ())
  else
    let p := runSteps t.steps s Result.empty
    let t1 : Try σ := { t with isComputed := true, finalResult := some p.2 }
    match p.2.error with
    | some e => (t1, p.1, .error e)
    | none => (t1, p.1, .ok ())

/-- getOrElse from the Try execution functions, cached variant: value on
success, the fallback on failure. -/
def tryGetOrElse {σ : Type} (t : Try σ) (fb : JSValue) (s : σ) :
    Try σ × σ × JSValue :=
  if t.isComputed then
    (t, s, if (cachedResult t).isError then fb else (cachedResult t).value)
  else
    let p := runSteps t.steps s Result.empty
    ({ t with isComputed := true, finalResult := some p.2 }, p.1,
      if p.2.isError then fb else p.2.value)

/-- Modelled from the spec: the cached variant of getOrElseGet is not in the
snapshot (only the pre-cache variant is); per the memoization contract and the
changelog it consults the cache like the other execution methods and computes
the fallback from the cached error. -/
def tryGetOrElseGet {σ : Type} (t : Try σ) (f : JSError → JSValue) (s : σ) :
    Try σ × σ × JSValue :=
  if t.isComputed then
    (t, s,
      match (cachedResult t).error with
      | some e => f e
      | none => (cachedResult t).value)
  else
    let p := runSteps t.steps s Result.empty
    ({ t with isComputed := true, finalResult := some p.2 }, p.1,
      match p.2.error with
      | some e => f e
      | none => p.2.value)

/-- getOrElseThrow from the Try execution functions, cached variant: value on
success, otherwise it throws the error produced by the callback. -/
def tryGetOrElseThrow {σ : Type} (t : Try σ) (g : JSError → JSError) (s : σ) :
    Try σ × σ × Except JSError JSValue :=
  if t.isComputed then
    (t, s,
      match (cachedResult t).error with
      | some e => .error (g e)
      | none => .ok (cachedResult t).value)
  else
    let p := runSteps t.steps s Result.empty
    ({ t with isComputed := true, finalResult := some p.2 }, p.1,
      match p.2.error with
      | some e => .error (g e)
      | none => .ok p.2.value)

/-- Modelled from the spec: the body of the success initializer step is not in
the snapshot, only the wrapper Try.success that wraps it; per section 4.3 of
the spec it produces one pre-populated Result carrying the value. -/
def successInit (v : JSValue) : Result := Result.empty.setValue v

/-- The failure initializer step: a fresh Result with the error slot set. -/
def failureInit (e : JSError) : Result := Result.empty.setError (some e)

/-- The map step from mapping/map.ts: pass an error state through unchanged,
otherwise replace the value with the callback result inside runInTry, so that
a thrown callback error lands in the error slot. -/
def mapStep {σ : Type} (f : Cb σ) : TStep σ := fun s prev =>
  if prev.isError then (s, prev)
  else
    let q := runInTry (fun s0 =>
      match f prev.value s0 with
      | (s1, .ok v) => (s1, .ok (prev.setValue v))
      | (s1, .error e) => (s1, .error e)) prev s
    (q.1, q.2.1)

/-- The andThen step from non-mapping/andThenTry.ts: pass an error state
through, otherwise run the callback for its side effect inside runInTry,
keeping the value. -/
def andThenStep {σ : Type} (f : CbU σ) : TStep σ := fun s prev =>
  if prev.isError then (s, prev)
  else
    let q := runInTry (fun s0 =>
      match f prev.value s0 with
      | (s1, .ok _) => (s1, .ok prev)
      | (s1, .error e) => (s1, .error e)) prev s
    (q.1, q.2.1)

/-- Modelled from the spec: the onSuccess step body is not in the snapshot,
only the wrapper Try.onSuccess; per the combinator table it runs the callback
for its side effect on a success, surfacing a thrown error as the new failure,
and is a no-op on a failure, the same shape as andThen. -/
def onSuccessStep {σ : Type} (f : CbU σ) : TStep σ := fun s prev =>
  if prev.isError then (s, prev)
  else
    let q := runInTry (fun s0 =>
      match f prev.value s0 with
      | (s1, .ok _) => (s1, .ok prev)
      | (s1, .error e) => (s1, .error e)) prev s
    (q.1, q.2.1)

/-- A flatMap callback producing a nested Try. -/
abbrev FCb (σ : Type) := JSValue → σ → σ × Except JSError (Try σ)

/-- The flatMap step from non-mapping/andThenTry.ts: pass an error state
through, otherwise obtain the nested Try from the callback and store the value
of its get, all inside runInTry so the error of a failed nested Try is caught
into the error slot.  The state effects of the nested chain are kept even when
it fails, since its steps did run. -/
def flatMapStep {σ : Type} (f : FCb σ) : TStep σ := fun s prev =>
  if prev.isError then (s, prev)
  else
    let q := runInTry (fun s0 =>
      match f prev.value s0 with
      | (s1, .error e) => (s1, .error e)
      | (s1, .ok tobj) =>
          match tryGet tobj s1 with
          | (_, s2, .ok v) => (s2, .ok (prev.setValue v))
          | (_, s2, .error e) => (s2, .error e)) prev s
    (q.1, q.2.1)

/-- Modelled from the spec: the filter step body is not in the snapshot, only
the wrapper Try.filter; it mirrors the filterNot step of filter/filterNot.ts
with the predicate polarity inverted, matching the spec table: on a success,
when the predicate holds the error slot is set to the provided error or to a
default NoSuchElementException whose message appends the value, and when the
predicate does not hold the Result passes unchanged; an error state passes
through, the predicate unevaluated. -/
def filterStep {σ : Type} (p : Pred σ) (errFn : Option (JSValue → JSError)) :
    TStep σ := fun s prev =>
  let q := runInTry (fun s0 =>
    if prev.isError then (s0, .ok prev)
    else
      match p prev.value s0 with
      | (s1, .error e) => (s1, .error e)
      | (s1, .ok b) =>
          if !b then (s1, .ok prev)
          else
            match errFn with
            | some f => (s1, .ok (prev.setError (some (f prev.value))))
            | none => (s1, .ok (prev.setError (some (mkNoSuchElement
                ("Predicate does not hold for " ++ jsToString prev.value)))))) prev s
  (q.1, q.2.1)

/-- Runs the get of every member Try in input order, threading the world and
collecting every outcome.  This models the Promise.all branch of the sequence
step: every member chain is started and runs to completion; with the chains
modelled as atomic transitions their effects land in input order. -/
def seqGetsAll {σ : Type} : List (Try σ) → σ → σ × List (Except JSError JSValue)
  | [], s => (s, [])
  | t :: rest, s =>
      let p := tryGet t s
      let q := seqGetsAll rest p.2.1
      (q.1, p.2.2 :: q.2)

/-- The first rejection in input order, or the list of all values. -/
def firstErr : List (Except JSError JSValue) → Except JSError (List JSValue)
  | [] => .ok []
  | .error e :: _ => .error e
  | .ok v :: rest =>
      match firstErr rest with
      | .ok vs => .ok (v :: vs)
      | .error e => .error e

/-- The sequential loop of the sequence step: awaits each get in input order
inside the single runInTry, so the first failure stops the loop and the
remaining member Tries are never executed. -/
def seqGetsSeq {σ : Type} : List (Try σ) → σ → σ × Except JSError (List JSValue)
  | [], s => (s, .ok [])
  | t :: rest, s =>
      match tryGet t s with
      | (_, s1, .error e) => (s1, .error e)
      | (_, s1, .ok v) =>
          match seqGetsSeq rest s1 with
          | (s2, .ok vs) => (s2, .ok (v :: vs))
          | (s2, .error e) => (s2, .error e)

/-- The sequence step from initializers/sequence.ts: a fresh Result; when the
parallel flag is set the member gets are awaited through Promise.all, else
through the sequential loop; a failure caught by runInTry is left in the error
slot, otherwise the collected values become the value as an array. -/
def sequenceStep {σ : Type} (tries : List (Try σ)) (parallel : Bool) (s : σ) :
    σ × Result :=
  if parallel then
    let p := seqGetsAll tries s
    match firstErr p.2 with
    | .ok vs => (p.1, Result.empty.setValue (.vArr vs))
    | .error e => (p.1, Result.empty.setError (some e))
  else
    match seqGetsSeq tries s with
    | (s1, .ok vs) => (s1, Result.empty.setValue (.vArr vs))
    | (s1, .error e) => (s1, Result.empty.setError (some e))

/-- Try.success from Try.ts: a new instance with the single pre-populated
step. -/
def Try.success {σ : Type} (v : JSValue) : Try σ :=
  { steps := [fun s _ => (s, successInit v)], isComputed := false, finalResult := none }

/-- Try.failure from Try.ts. -/
def Try.failure {σ : Type} (e : JSError) : Try σ :=
  { steps := [fun s _ => (s, failureInit e)], isComputed := false, finalResult := none }

/-- Try.map from Try.ts: a new instance whose steps are the steps of the
receiver plus the appended map step; the new instance starts uncomputed. -/
def Try.map {σ : Type} (t : Try σ) (f : Cb σ) : Try σ :=
  { steps := t.steps ++ [mapStep f], isComputed := false, finalResult := none }

/-- Try.flatMap from Try.ts. -/
def Try.flatMap {σ : Type} (t : Try σ) (f : FCb σ) : Try σ :=
  { steps := t.steps ++ [flatMapStep f], isComputed := false, finalResult := none }

/-- Try.andThen from Try.ts. -/
def Try.andThen {σ : Type} (t : Try σ) (f : CbU σ) : Try σ :=
  { steps := t.steps ++ [andThenStep f], isComputed := false, finalResult := none }

/-- Try.onSuccess from Try.ts. -/
def Try.onSuccess {σ : Type} (t : Try σ) (f : CbU σ) : Try σ :=
  { steps := t.steps ++ [onSuccessStep f], isComputed := false, finalResult := none }

/-- Try.filter from Try.ts. -/
def Try.filter {σ : Type} (t : Try σ) (p : Pred σ) (errFn : Option (JSValue → JSError)) :
    Try σ :=
  { steps := t.steps ++ [filterStep p errFn], isComputed := false, finalResult := none }

/-- Try.sequence from Try.ts with the parallel flag passed explicitly: one
step running the sequence body. -/
def Try.sequence {σ : Type} (tries : List (Try σ)) (parallel : Bool) : Try σ :=
  { steps := [fun s _ => sequenceStep tries parallel s], isComputed := false,
    finalResult := none }

/-- A call of Try.sequence that omits the parallel argument: the declaration
at line 133 of Try.ts gives the parameter the default value true. -/
def Try.sequenceDefault {σ : Type} (tries : List (Try σ)) : Try σ :=
  Try.sequence tries true

/-- An Option step.  Unlike the Try steps, several Option steps invoke their
callbacks outside any catch, so a step itself may throw, which rejects the
whole execution method call. -/
abbrev OStep (σ : Type) := σ → Result → σ × Except JSError Result

/-- The Option instance internals from Option.ts: the step list and the cache
holding only the last extracted value, initially undefined, with no computed
flag. -/
structure Opt (σ : Type) where
  steps : List (OStep σ)
  finalResult : JSValue

/-- The loop inside Option.runSteps: awaits each step in order; an uncaught
throw escapes at once. -/
def optRunStepsLoop {σ : Type} : List (OStep σ) → σ → Result → σ × Except JSError Result
  | [], s, r => (s, .ok r)
  | step :: rest, s, r =>
      match step s r with
      | (s1, .ok r1) => optRunStepsLoop rest s1 r1
      | (s1, .error e) => (s1, .error e)

/-- The private Option.runSteps method: every call starts from a fresh empty
Result, runs the whole chain and stores the extracted value into finalResult;
on an uncaught throw the assignment is never reached. -/
def Opt.runStepsM {σ : Type} (o : Opt σ) (s : σ) : Opt σ × σ × Option JSError :=
  match optRunStepsLoop o.steps s Result.empty with
  | (s1, .ok r) => ({ o with finalResult := r.getValue }, s1, none)
  | (s1, .error e) => (o, s1, some e)

/-- Option.isEmpty: the last computed value is loose-equal to null. -/
def Opt.isEmpty {σ : Type} (o : Opt σ) : Bool := looseNull o.finalResult

/-- Option.isDefined. -/
def Opt.isDefined {σ : Type} (o : Opt σ) : Bool := !o.isEmpty

/-- Option.get: runs the chain, then throws NoSuchElementException when the
stored value is loose-null, else returns it. -/
def Opt.get {σ : Type} (o : Opt σ) (s : σ) : Opt σ × σ × Except JSError JSValue :=
  match o.runStepsM s with
  | (o1, s1, some e) => (o1, s1, .error e)
  | (o1, s1, none) =>
      if o1.isEmpty then (o1, s1, .error (mkNoSuchElement ("No value present")))
      else (o1, s1, .ok o1.finalResult)

/-- Option.run: runs the chain, discarding the outcome; emptiness never
throws, an uncaught step throw still rejects. -/
def Opt.run {σ : Type} (o : Opt σ) (s : σ) : Opt σ × σ × Except JSError Unit :=
  match o.runStepsM s with
  | (o1, s1, some e) => (o1, s1, .error e)
  | (o1, s1, none) => (o1, s1, .ok ())

/-- Option.getOrElse with a plain fallback value: runs the chain; the stored
value when defined, else the fallback. -/
def Opt.getOrElse {σ : Type} (o : Opt σ) (fb : JSValue) (s : σ) :
    Opt σ × σ × Except JSError JSValue :=
  match o.runStepsM s with
  | (o1, s1, some e) => (o1, s1, .error e)
  | (o1, s1, none) =>
      if o1.isDefined then (o1, s1, .ok o1.finalResult) else (o1, s1, .ok fb)

/-- Option.getOrElseThrow: runs the chain; throws the provided error when the
stored value is loose-null. -/
def Opt.getOrElseThrow {σ : Type} (o : Opt σ) (errP : Unit → JSError) (s : σ) :
    Opt σ × σ × Except JSError JSValue :=
  match o.runStepsM s with
  | (o1, s1, some e) => (o1, s1, .error e)
  | (o1, s1, none) =>
      if o1.isEmpty then (o1, s1, .error (errP ()))
      else (o1, s1, .ok o1.finalResult)

/-- The Option map step from functions/option/map.ts: when the previous value
is falsy the Result passes unchanged, otherwise the value is replaced by the
awaited mapper result; the mapper call is not wrapped, a throw escapes. -/
def optionMapStep {σ : Type} (mapper : Cb σ) : OStep σ := fun s prev =>
  if !truthy prev.getValue then (s, .ok prev)
  else
    match mapper prev.getValue s with
    | (s1, .ok v) => (s1, .ok (prev.setValue v))
    | (s1, .error e) => (s1, .error e)

/-- The Option peek step from functions/option/peek.ts: when the previous
value is falsy the Result passes unchanged, otherwise the consumer runs for
its side effect; the call is not wrapped, a throw escapes. -/
def optionPeekStep {σ : Type} (consumer : CbU σ) : OStep σ := fun s prev =>
  if !truthy prev.getValue then (s, .ok prev)
  else
    match consumer prev.getValue s with
    | (s1, .ok _) => (s1, .ok prev)
    | (s1, .error e) => (s1, .error e)

/-- The Option onEmpty step, from the function stored alongside Result.ts:
when the previous value is falsy the callback runs for its side effect, and
the Result passes unchanged either way. -/
def optionOnEmptyStep {σ : Type} (f : σ → σ × Except JSError Unit) : OStep σ :=
  fun s prev =>
    if !truthy prev.getValue then
      match f s with
      | (s1, .ok _) => (s1, .ok prev)
      | (s1, .error e) => (s1, .error e)
    else (s, .ok prev)

/-- The Option filter step from functions/option/filter.ts: when the previous
value is falsy, or the predicate answers false, the Result passes unchanged;
otherwise the value is cleared to null.  The predicate call is synchronous in
the source (its promise is never awaited), so it is modelled pure. -/
def optionFilterStep {σ : Type} (p : JSValue → Bool) : OStep σ := fun s prev =>
  if !truthy prev.getValue || !p prev.getValue then (s, .ok prev)
  else (s, .ok (prev.setValue .vNull))

/-- A flatMap mapper producing a nested Option. -/
abbrev OMCb (σ : Type) := JSValue → σ → σ × Except JSError (Opt σ)

/-- The Option flatMap step from functions/option/flatMap.ts: when the
previous value is falsy the Result passes unchanged; otherwise the mapper is
awaited to obtain the nested Option, and the value slot is set to the result
of calling get on it WITHOUT awaiting it, that is, to the pending promise of
the nested chain.  The nested chain still executes, so its world effects are
kept; its value or rejection is wrapped as a promise in the slot. -/
def optionFlatMapStep {σ : Type} (mapper : OMCb σ) : OStep σ := fun s prev =>
  if !truthy prev.getValue then (s, .ok prev)
  else
    match mapper prev.getValue s with
    | (s1, .error e) => (s1, .error e)
    | (s1, .ok nested) =>
        match nested.get s1 with
        | (_, s2, .ok v) => (s2, .ok (prev.setValue (.vPromiseOk v)))
        | (_, s2, .error e) => (s2, .ok (prev.setValue (.vPromiseErr e)))

/-- Option.none from Option.ts: one step producing a Result whose value is
null. -/
def Opt.none {σ : Type} : Opt σ :=
  { steps := [fun s _ => (s, .ok (Result.empty.setValue .vNull))],
    finalResult := .vUndefined }

/-- Option.some from Option.ts: one step wrapping the value. -/
def Opt.some {σ : Type} (v : JSValue) : Opt σ :=
  { steps := [fun s _ => (s, .ok (Result.empty.setValue v))],
    finalResult := .vUndefined }

/-- Option.of from Option.ts: none for a loose-null value, else some. -/
def Opt.of {σ : Type} (v : JSValue) : Opt σ :=
  if looseNull v then Opt.none else Opt.some v

/-- Option.map from Option.ts: a new instance with the appended map step. -/
def Opt.map {σ : Type} (o : Opt σ) (mapper : Cb σ) : Opt σ :=
  { steps := o.steps ++ [optionMapStep mapper], finalResult := .vUndefined }

/-- Option.filter from Option.ts. -/
def Opt.filter {σ : Type} (o : Opt σ) (p : JSValue → Bool) : Opt σ :=
  { steps := o.steps ++ [optionFilterStep p], finalResult := .vUndefined }

/-- Option.flatMap from Option.ts. -/
def Opt.flatMap {σ : Type} (o : Opt σ) (mapper : OMCb σ) : Opt σ :=
  { steps := o.steps ++ [optionFlatMapStep mapper], finalResult := .vUndefined }

/-- Option.peek from Option.ts. -/
def Opt.peek {σ : Type} (o : Opt σ) (consumer : CbU σ) : Opt σ :=
  { steps := o.steps ++ [optionPeekStep consumer], finalResult := .vUndefined }

/-- Option.onEmpty from Option.ts. -/
def Opt.onEmpty {σ : Type} (o : Opt σ) (f : σ → σ × Except JSError Unit) : Opt σ :=
  { steps := o.steps ++ [optionOnEmptyStep f], finalResult := .vUndefined }

/-- A callback that always throws: the thrown error and the world effect are
given by g. -/
def throwCb {σ : Type} (g : JSValue → σ → σ × JSError) : Cb σ :=
  fun v s => ((g v s).1, .error (g v s).2)

/-- The predicate v less or equal 2 of the spec example. -/
def predLe2 : JSValue → Bool
  | .vNum n => decide (n ≤ 2)
  | _ => false

/-- The predicate v greater than 2 of the spec example. -/
def predGt2 : JSValue → Bool
  | .vNum n => decide (n > 2)
  | _ => false

/-- C3: for every value x, Try.success(x).get() resolves to x, and for every
error object e, Try.failure(e).get() rejects with exactly the same error
object e. -/
theorem try_success_failure_get {σ : Type} (x : JSValue) (e : JSError) (s : σ) :
    (tryGet (Try.success x) s).2 = (s, Except.ok x)
    ∧ (tryGet (Try.failure e) s).2 = (s, Except.error e) :=
  ⟨rfl, rfl⟩

/-- C2: a Result whose error slot is populated passes through every
value-producing Try step (map, flatMap, filter, andThen, onSuccess) unchanged:
the same error stays in the error slot, the value slot is untouched, and the
user callback is never invoked, witnessed by the world being untouched for
arbitrary effectful callbacks. -/
theorem failure_short_circuits_steps {σ : Type} (v : JSValue) (e : JSError)
    (s : σ) (f : Cb σ) (g : FCb σ) (h : CbU σ) (k : CbU σ) (p : Pred σ)
    (errFn : Option (JSValue → JSError)) :
    mapStep f s ⟨v, some e⟩ = (s, ⟨v, some e⟩)
    ∧ flatMapStep g s ⟨v, some e⟩ = (s, ⟨v, some e⟩)
    ∧ filterStep p errFn s ⟨v, some e⟩ = (s, ⟨v, some e⟩)
    ∧ andThenStep h s ⟨v, some e⟩ = (s, ⟨v, some e⟩)
    ∧ onSuccessStep k s ⟨v, some e⟩ = (s, ⟨v, some e⟩) :=
  ⟨rfl, rfl, rfl, rfl, rfl⟩

/-- C10: when a callback wrapped by runInTry throws, the thrown error is
written into the error slot while the value slot still holds the pre-step
value: shown for runInTry itself and for the map step on a success-state
Result, whose getValue afterwards returns the stale value while isError
reports the failure. -/
theorem runInTry_throw_atomic {σ : Type} (v : JSValue) (s : σ)
    (g : JSValue → σ → σ × JSError) (bodyG : σ → σ × JSError) :
    runInTry (fun s0 => ((bodyG s0).1, .error (bodyG s0).2)) ⟨v, none⟩ s
      = ((bodyG s).1, ⟨v, some (bodyG s).2⟩, false)
    ∧ mapStep (throwCb g) s ⟨v, none⟩ = ((g v s).1, ⟨v, some (g v s).2⟩)
    ∧ (Result.mk v (some (g v s).2)).getValue = v
    ∧ (Result.mk v (some (g v s).2)).isError = true :=
  ⟨rfl, rfl, rfl, rfl⟩

/-- C4: on a success-state Result the filter step sets the error slot exactly
when the predicate holds, using the provided error function or the default
NoSuchElementException whose message appends the value; when the predicate
does not hold the Result passes unchanged.  The two spec examples on the value
2 are evaluated through the full pipeline. -/
theorem filter_sets_error_iff_pred {σ : Type} (p : JSValue → Bool) (v : JSValue)
    (f : JSValue → JSError) (s : σ) :
    filterStep (purePred p) (some f) s (Result.empty.setValue v)
      = (s, if p v then (Result.empty.setValue v).setError (some (f v))
            else Result.empty.setValue v)
    ∧ filterStep (purePred p) none s (Result.empty.setValue v)
      = (s, if p v then (Result.empty.setValue v).setError (some (mkNoSuchElement
              ("Predicate does not hold for " ++ jsToString v)))
            else Result.empty.setValue v)
    ∧ (tryGet ((Try.success (.vNum 2)).filter (purePred predLe2) none) s).2
        = (s, .error (mkNoSuchElement ("Predicate does not hold for 2")))
    ∧ (tryGet ((Try.success (.vNum 2)).filter (purePred predGt2) none) s).2
        = (s, .ok (.vNum 2)) := by
  refine ⟨?_, ?_, ?_, ?_⟩
  · by_cases hp : p v <;>
      simp [filterStep, purePred, runInTry, Result.isError, Result.setValue,
        Result.empty, hp]
  · by_cases hp : p v <;>
      simp [filterStep, purePred, runInTry, Result.isError, Result.setValue,
        Result.empty, hp]
  · rfl
  · rfl

/-- The mapper of the spec memoization example: multiplies the value by the
mutable outer variable mul, modelled as the world. -/
def mulCb : Cb Int := fun v s =>
  (s, .ok (match v with | .vNum n => .vNum (n * s) | _ => .vUndefined))

/-- The spec memoization example instance Try.success(2).map(v times mul). -/
def tmulEx : Try Int := (Try.success (.vNum 2)).map mulCb

/-- C1: the step chain of a Try instance executes at most once.  Every
execution method marks the instance computed; on the instance returned by a
completed get, every later execution method leaves the world untouched, so no
step reruns, and answers from the cached Result; and in the spec example the
mapper closure reads the outer variable mul, yet after mul mutates from 2 to 3
the second get still returns 4 from the cache. -/
theorem try_memoizes_chain {σ : Type} (t : Try σ) (s s2 : σ) (fb : JSValue)
    (f : JSError → JSValue) (g : JSError → JSError) :
    (tryGet t s).1.isComputed = true
    ∧ (tryRun t s).1.isComputed = true
    ∧ (tryGetOrElse t fb s).1.isComputed = true
    ∧ (tryGetOrElseGet t f s).1.isComputed = true
    ∧ (tryGetOrElseThrow t g s).1.isComputed = true
    ∧ tryGet ((tryGet t s).1) s2 = ((tryGet t s).1, s2, (tryGet t s).2.2)
    ∧ tryRun ((tryGet t s).1) s2 = ((tryGet t s).1, s2, .ok ())
    ∧ tryGetOrElse ((tryGet t s).1) fb s2
        = ((tryGet t s).1, s2,
            match (tryGet t s).2.2 with | .ok v => v | .error _ => fb)
    ∧ tryGetOrElseGet ((tryGet t s).1) f s2
        = ((tryGet t s).1, s2,
            match (tryGet t s).2.2 with | .ok v => v | .error e => f e)
    ∧ tryGetOrElseThrow ((tryGet t s).1) g s2
        = ((tryGet t s).1, s2,
            match (tryGet t s).2.2 with
            | .ok v => .ok v
            | .error e => .error (g e))
    ∧ tryGet ((tryRun t s).1) s2
        = ((tryRun t s).1, s2, resultOutcome (cachedResult (tryRun t s).1))
    ∧ (∀ t1 : Try σ, t1.isComputed = true →
        tryGet t1 s2 = (t1, s2, resultOutcome (cachedResult t1))
        ∧ tryRun t1 s2 = (t1, s2, .ok ())
        ∧ tryGetOrElse t1 fb s2
            = (t1, s2,
                if (cachedResult t1).isError then fb else (cachedResult t1).value)
        ∧ tryGetOrElseGet t1 f s2
            = (t1, s2,
                match (cachedResult t1).error with
                | some e => f e
                | none => (cachedResult t1).value)
        ∧ tryGetOrElseThrow t1 g s2
            = (t1, s2,
                match (cachedResult t1).error with
                | some e => .error (g e)
                | none => .ok (cachedResult t1).value))
    ∧ (tryGet tmulEx 2).2 = (2, .ok (.vNum 4))
    ∧ tryGet (tryGet tmulEx 2).1 3 = ((tryGet tmulEx 2).1, 3, .ok (.vNum 4)) := by
  have hcache : ∀ t1 : Try σ, t1.isComputed = true →
      tryGet t1 s2 = (t1, s2, resultOutcome (cachedResult t1))
      ∧ tryRun t1 s2 = (t1, s2, .ok ())
      ∧ tryGetOrElse t1 fb s2
          = (t1, s2,
              if (cachedResult t1).isError then fb else (cachedResult t1).value)
      ∧ tryGetOrElseGet t1 f s2
          = (t1, s2,
              match (cachedResult t1).error with
              | some e => f e
              | none => (cachedResult t1).value)
      ∧ tryGetOrElseThrow t1 g s2
          = (t1, s2,
              match (cachedResult t1).error with
              | some e => .error (g e)
              | none => .ok (cachedResult t1).value) := by
    intro t1 h1
    refine ⟨?_, ?_, ?_, ?_, ?_⟩ <;>
      simp [tryGet, tryRun, tryGetOrElse, tryGetOrElseGet, tryGetOrElseThrow, h1]
  cases hc : t.isComputed with
  | true =>
      refine ⟨?_, ?_, ?_, ?_, ?_, ?_, ?_, ?_, ?_, ?_, ?_, hcache, rfl, rfl⟩ <;>
        rcases he : (cachedResult t).error with _ | e <;>
          simp [tryGet, tryRun, tryGetOrElse, tryGetOrElseGet, tryGetOrElseThrow,
            resultOutcome, Result.isError, hc, he]
  | false =>
      refine ⟨?_, ?_, ?_, ?_, ?_, ?_, ?_, ?_, ?_, ?_, ?_, hcache, rfl, rfl⟩ <;>
        rcases he : (runSteps t.steps s Result.empty).2.error with _ | e <;>
          simp [tryGet, tryRun, tryGetOrElse, tryGetOrElseGet, tryGetOrElseThrow,
            resultOutcome, cachedResult, Result.isError, hc, he]

/-- C1 witness: the cached-read clause applied to the concrete computed
instance of the memoization example, after the outer variable mul has mutated
from 2 to 3: the second get still answers 4 from the cache. -/
theorem try_memoizes_chain_witness :
    tryGet (tryGet tmulEx 2).1 3 = ((tryGet tmulEx 2).1, 3, .ok (.vNum 4))
    ∧ ((tryGet tmulEx 2).1).isComputed = true := by
  have h := ((try_memoizes_chain tmulEx 2 3 .vNull (fun _ => .vNull)
    (fun e => e)).2.2.2.2.2.2.2.2.2.2.2.1) ((tryGet tmulEx 2).1) rfl
  exact ⟨h.1, rfl⟩

/-- Running the Option chain never changes the stored step list. -/
theorem Opt.runStepsM_fst_steps {σ : Type} (o : Opt σ) (s : σ) :
    ((o.runStepsM s).1).steps = o.steps := by
  rcases hl : optRunStepsLoop o.steps s Result.empty with ⟨s1, out⟩
  cases out <;> simp [Opt.runStepsM, hl]

/-- The world after Option.runSteps is the world after running the whole
chain from a fresh empty Result. -/
theorem Opt.runStepsM_state {σ : Type} (o : Opt σ) (s : σ) :
    (o.runStepsM s).2.1 = (optRunStepsLoop o.steps s Result.empty).1 := by
  rcases hl : optRunStepsLoop o.steps s Result.empty with ⟨s1, out⟩
  cases out <;> simp [Opt.runStepsM, hl]

/-- A consumer that counts its invocations in the world. -/
def peekCount : CbU Nat := fun _ s => (s + 1, .ok ())

/-- The counting example instance Option.of(5).peek(counter). -/
def optCountEx : Opt Nat := (Opt.of (.vNum 5)).peek peekCount

/-- C8: Option execution methods do not memoize.  Each of get, run, getOrElse
and getOrElseThrow leaves the step list in place and performs the world
effects of the entire chain run from a fresh empty Result; the outcome never
depends on the previously cached value; and in the counting example a side
effect inside a peek step runs once per execution-method call, so the counter
reaches 2 after two get calls on the same instance. -/
theorem option_not_memoized {σ : Type} (o : Opt σ) (s : σ) (fb : JSValue)
    (errP : Unit → JSError) (st : List (OStep σ)) (fr1 fr2 : JSValue) :
    (Opt.get o s).1.steps = o.steps
    ∧ (Opt.run o s).1.steps = o.steps
    ∧ (Opt.getOrElse o fb s).1.steps = o.steps
    ∧ (Opt.getOrElseThrow o errP s).1.steps = o.steps
    ∧ (Opt.get o s).2.1 = (optRunStepsLoop o.steps s Result.empty).1
    ∧ (Opt.run o s).2.1 = (optRunStepsLoop o.steps s Result.empty).1
    ∧ (Opt.getOrElse o fb s).2.1 = (optRunStepsLoop o.steps s Result.empty).1
    ∧ (Opt.getOrElseThrow o errP s).2.1
        = (optRunStepsLoop o.steps s Result.empty).1
    ∧ (Opt.get ⟨st, fr1⟩ s).2 = (Opt.get ⟨st, fr2⟩ s).2
    ∧ (Opt.get optCountEx 0).2 = (1, .ok (.vNum 5))
    ∧ (Opt.get (Opt.get optCountEx 0).1 1).2 = (2, .ok (.vNum 5)) := by
  have hsteps := Opt.runStepsM_fst_steps o s
  have hstate := Opt.runStepsM_state o s
  rcases hm : o.runStepsM s with ⟨o1, s1, me⟩
  rw [hm] at hsteps hstate
  simp only [Prod.fst, Prod.snd] at hsteps hstate
  refine ⟨?_, ?_, ?_, ?_, ?_, ?_, ?_, ?_, ?_, rfl, rfl⟩
  · cases me <;> simp only [Opt.get, hm] <;>
      first
        | exact hsteps
        | (split <;> exact hsteps)
  · cases me <;> simp only [Opt.run, hm] <;> exact hsteps
  · cases me <;> simp only [Opt.getOrElse, hm] <;>
      first
        | exact hsteps
        | (split <;> exact hsteps)
  · cases me <;> simp only [Opt.getOrElseThrow, hm] <;>
      first
        | exact hsteps
        | (split <;> exact hsteps)
  · cases me <;> simp only [Opt.get, hm] <;>
      first
        | exact hstate
        | (split <;> exact hstate)
  · cases me <;> simp only [Opt.run, hm] <;> exact hstate
  · cases me <;> simp only [Opt.getOrElse, hm] <;>
      first
        | exact hstate
        | (split <;> exact hstate)
  · cases me <;> simp only [Opt.getOrElseThrow, hm] <;>
      first
        | exact hstate
        | (split <;> exact hstate)
  · rcases hl : optRunStepsLoop st s Result.empty with ⟨s1x, out⟩
    cases out <;> simp [Opt.get, Opt.runStepsM, hl]

/-- The predicate v greater than 5 of the README filter example. -/
def predGt5 : JSValue → Bool
  | .vNum n => decide (n > 5)
  | _ => false

/-- C5: what the Option filter step actually does on a populated carrier: the
value is cleared to null exactly when the carried value is truthy AND the
predicate answers true, the opposite polarity of the claim; through the full
pipeline, Option.of(10).filter(v greater than 5) comes out empty and get
rejects with No value present, while the negated predicate keeps the 10. -/
theorem option_filter_clears_when_pred_true {σ : Type} (p : JSValue → Bool)
    (v : JSValue) (s : σ) :
    optionFilterStep p s (Result.empty.setValue v)
      = (s, .ok (if truthy v && p v
            then (Result.empty.setValue v).setValue .vNull
            else Result.empty.setValue v))
    ∧ (Opt.get ((Opt.of (.vNum 10) : Opt Unit).filter predGt5) ()).2
        = ((), .error (mkNoSuchElement ("No value present")))
    ∧ (Opt.get ((Opt.of (.vNum 10) : Opt Unit).filter (fun _ => false)) ()).2
        = ((), .ok (.vNum 10)) := by
  refine ⟨?_, rfl, rfl⟩
  by_cases ht : truthy v <;> by_cases hp : p v <;>
    simp [optionFilterStep, Result.getValue, Result.setValue, Result.empty, ht, hp]

/-- A mapper that counts its invocations and answers the constant 7. -/
def const7 : Cb Nat := fun _ s => (s + 1, .ok (.vNum 7))

/-- An onEmpty callback that counts its invocations. -/
def onEmptyCount : Nat → Nat × Except JSError Unit := fun s => (s + 1, .ok ())

/-- C6 counterexample: on a carrier holding the falsy but non-null value 0 the
Option map step does NOT apply the mapper (the value stays 0, the invocation
counter stays 0, instead of becoming 7 with counter 1 as the claim asserts),
the peek step does not invoke the consumer, and the onEmpty step DOES run its
callback. -/
theorem option_falsy_counterexample :
    optionMapStep const7 0 (Result.empty.setValue (.vNum 0))
      = (0, .ok (Result.empty.setValue (.vNum 0)))
    ∧ optionMapStep const7 0 (Result.empty.setValue (.vNum 0))
      ≠ (1, .ok (Result.empty.setValue (.vNum 7)))
    ∧ optionPeekStep peekCount 0 (Result.empty.setValue (.vNum 0))
      = (0, .ok (Result.empty.setValue (.vNum 0)))
    ∧ optionOnEmptyStep onEmptyCount 0 (Result.empty.setValue (.vNum 0))
      = (1, .ok (Result.empty.setValue (.vNum 0))) := by
  refine ⟨rfl, ?_, rfl, rfl⟩
  intro h
  exact absurd (congrArg Prod.fst h) (by decide)

/-- C6 amended: the execution-level emptiness check of isEmpty and get is
loose-null, but the step combinators test truthiness of the carried value, so
on every falsy non-null value the map step passes the carrier through without
invoking the mapper, the peek step does not invoke the consumer, the onEmpty
step runs its callback, and yet an instance whose computed value is that value
still counts as non-empty for isEmpty. -/
theorem option_falsy_acts_empty_in_steps {σ : Type} (v : JSValue) (cb : Cb σ)
    (c : CbU σ) (g : σ → σ × Except JSError Unit) (s : σ) (st : List (OStep σ))
    (hf : truthy v = false) (hn : looseNull v = false) :
    optionMapStep cb s (Result.empty.setValue v)
      = (s, .ok (Result.empty.setValue v))
    ∧ optionPeekStep c s (Result.empty.setValue v)
      = (s, .ok (Result.empty.setValue v))
    ∧ optionOnEmptyStep g s (Result.empty.setValue v)
      = ((g s).1,
          match (g s).2 with
          | .ok _ => .ok (Result.empty.setValue v)
          | .error e => .error e)
    ∧ (Opt.mk st v).isEmpty = false := by
  refine ⟨?_, ?_, ?_, ?_⟩
  · simp [optionMapStep, Result.getValue, Result.setValue, Result.empty, hf]
  · simp [optionPeekStep, Result.getValue, Result.setValue, Result.empty, hf]
  · rcases hg : g s with ⟨s1, u⟩
    cases u <;>
      simp [optionOnEmptyStep, Result.getValue, Result.setValue, Result.empty, hf, hg]
  · simp [Opt.isEmpty, hn]

/-- C6 witness: the amended statement applied at the falsy non-null value 0
with counting callbacks. -/
theorem option_falsy_acts_empty_in_steps_witness :
    optionMapStep const7 1 (Result.empty.setValue (.vNum 0))
      = (1, .ok (Result.empty.setValue (.vNum 0)))
    ∧ optionPeekStep peekCount 1 (Result.empty.setValue (.vNum 0))
      = (1, .ok (Result.empty.setValue (.vNum 0)))
    ∧ optionOnEmptyStep onEmptyCount 1 (Result.empty.setValue (.vNum 0))
      = ((onEmptyCount 1).1,
          match (onEmptyCount 1).2 with
          | .ok _ => .ok (Result.empty.setValue (.vNum 0))
          | .error e => .error e)
    ∧ (Opt.mk [] (.vNum 0) : Opt Nat).isEmpty = false :=
  option_falsy_acts_empty_in_steps (.vNum 0) const7 peekCount onEmptyCount 1 [] rfl rfl

/-- The flatMap mapper of the failing input: doubles the number inside a
nested Option. -/
def doubleOpt : OMCb (Option JSValue) := fun v s =>
  (s, .ok (Opt.of (match v with | .vNum n => .vNum (n * 2) | _ => .vUndefined)))

/-- A mapper that records the argument it receives into the world. -/
def recordCb : Cb (Option JSValue) := fun v _ => (some v, .ok v)

/-- The failing input Option.of(10).flatMap(double).map(recorder). -/
def flatMapEx : Opt (Option JSValue) :=
  ((Opt.of (.vNum 10)).flatMap doubleOpt).map recordCb

/-- C7: the flatMap step stores the UN-awaited promise of the nested get into
the carrier, so the map step appended after it receives the pending promise
object, not the resolved number 20: the recorder world shows the promise was
the argument, and the promise value differs from the resolved value. -/
theorem option_flatmap_stores_pending_promise :
    (Opt.get flatMapEx none).2.1 = some (.vPromiseOk (.vNum 20))
    ∧ (JSValue.vPromiseOk (.vNum 20)) ≠ JSValue.vNum 20
    ∧ (Opt.get flatMapEx none).2.2 = .ok (.vPromiseOk (.vNum 20)) :=
  ⟨rfl, fun h => JSValue.noConfusion h, rfl⟩

/-- The error of the sequence counterexample. -/
def errX : JSError := { name := "Error", message := "boom" }

/-- A member mapper that counts executions of the second member chain. -/
def seqIncCb : Cb Nat := fun v s => (s + 1, .ok v)

/-- The sequence counterexample list: a failing Try followed by a Try whose
chain counts its executions. -/
def seqEx : List (Try Nat) := [Try.failure errX, (Try.success (.vNum 1)).map seqIncCb]

/-- C9 counterexample: calling Try.sequence without the parallel argument does
not behave sequentially: on a list whose first member fails, the default call
still executes the second member chain (counter 1), while the explicit
sequential call stops at the failure (counter 0); both reject with the first
error. -/
theorem sequence_default_not_sequential :
    (tryGet (Try.sequenceDefault seqEx) 0).2.1 = 1
    ∧ (tryGet (Try.sequence seqEx false) 0).2.1 = 0
    ∧ (tryGet (Try.sequenceDefault seqEx) 0).2.1
        ≠ (tryGet (Try.sequence seqEx false) 0).2.1
    ∧ (tryGet (Try.sequenceDefault seqEx) 0).2.2 = .error errX := by
  refine ⟨rfl, rfl, ?_, rfl⟩
  intro h
  rw [show (tryGet (Try.sequenceDefault seqEx) 0).2.1 = 1 from rfl,
    show (tryGet (Try.sequence seqEx false) 0).2.1 = 0 from rfl] at h
  exact absurd h (by decide)

/-- C9 amended: Try.sequence called without an explicit parallel argument
passes parallel equal true, taking the Promise.all branch: with a failing
first member the second member chain still runs (its world effects happen) and
the first error in input order is surfaced; the members are awaited strictly
one after the other, short-circuiting on the first failure, only when
parallel equal false is passed explicitly. -/
theorem sequence_default_is_parallel {σ : Type} (tries : List (Try σ))
    (e : JSError) (t2 : Try σ) (s : σ) :
    Try.sequenceDefault tries = Try.sequence tries true
    ∧ (sequenceStep (Try.failure e :: [t2]) true s).1 = (tryGet t2 s).2.1
    ∧ (sequenceStep (Try.failure e :: [t2]) true s).2
        = Result.empty.setError (some e)
    ∧ (sequenceStep (Try.failure e :: [t2]) false s).1 = s
    ∧ (sequenceStep (Try.failure e :: [t2]) false s).2
        = Result.empty.setError (some e) :=
  ⟨rfl, rfl, rfl, rfl, rfl⟩

end FuncTs
